import Mathlib

/-!
Verification of the periodic TCP sender script (src/sender.py).

The script is embedded as a fuel-bounded trace semantics: an `Env` supplies
the outcomes the operating system decides (whether `connect` succeeds,
whether each `sendall` succeeds, whether a keyboard interrupt arrives during
a given sleep, and the textual rendering of each `time.time()` reading).
Running the script against an environment yields a list of observable
events and a final state.  All claims are proved about this semantics.
-/

namespace Sender

/-- Embeds `HOST = '127.0.0.1'` from the source. -/
def HOST : String := "127.0.0.1"

/-- Embeds `PORT = 6000` from the source. -/
def PORT : Nat := 6000

/-- One decimal digit rendered as a character, as Python renders integers. -/
def digitChar (d : Nat) : Char :=
  match d with
  | 0 => '0' | 1 => '1' | 2 => '2' | 3 => '3' | 4 => '4'
  | 5 => '5' | 6 => '6' | 7 => '7' | 8 => '8' | 9 => '9'
  | _ => '*'

/-- Fuel-bounded accumulator producing the decimal digits of `n` (most
significant first) in front of `acc`. -/
def natStrAux : Nat → Nat → List Char → List Char
  | 0, _, acc => acc
  | fuel + 1, n, acc =>
    if n < 10 then digitChar n :: acc
    else natStrAux fuel (n / 10) (digitChar (n % 10) :: acc)

/-- Decimal rendering of a natural number, as the f-string interpolation of
`counter` renders a Python int. -/
def natStr (n : Nat) : String := ⟨natStrAux (n + 1) n []⟩

/-- Embeds the source line building `message` from `counter` and
`time.time()`: the timestamp string `ts` is the environment-supplied
rendering of the clock reading. -/
def message (counter : Nat) (ts : String) : String :=
  "Hello " ++ natStr counter ++ " at " ++ ts

/-- Exceptions the script can die from (spec taxonomy plus interruption). -/
inductive PyError where
  | connectionError
  | writeError
  | keyboardInterrupt
  deriving DecidableEq, Repr

/-- Observable events of a run of the script. -/
inductive Event where
  /-- the call `s.connect` on the given pair. -/
  | connectAttempt (host : String) (port : Nat)
  /-- the `print` after a successful connect. -/
  | printConnected
  /-- `s.sendall` succeeds; `seq` is the counter value embedded in the
  payload and `payload` the full text written to the stream. -/
  | sent (seq : Nat) (payload : String)
  /-- the `print` after a successful send. -/
  | printSent (payload : String)
  /-- `time.sleep` runs to completion for `secs` seconds. -/
  | sleep (secs : Nat)
  /-- an exception of kind `e` propagates out of the `with` block. -/
  | raised (e : PyError)
  /-- the `with` block closes the socket on exit. -/
  | socketClosed
  deriving DecidableEq, Repr

/-- Final state of a fuel-bounded run: still in the loop with the current
counter value, or exited via an unhandled exception.  The second field of
`exited` is the value of the Python variable `counter` at exit (`none` when
the process dies before `counter = 0` is executed). -/
inductive Final where
  | running (counter : Nat)
  | exited (e : PyError) (counter : Option Nat)
  deriving DecidableEq, Repr

/-- Environment: everything outside the script that determines a run. -/
structure Env where
  /-- whether `s.connect` succeeds. -/
  connectOk : Bool
  /-- whether the `sendall` of iteration `i` succeeds. -/
  writeOk : Nat → Bool
  /-- whether a keyboard interrupt arrives during the sleep of iteration `i`. -/
  interruptAt : Nat → Bool
  /-- the textual rendering of the `time.time()` reading of iteration `i`. -/
  clock : Nat → String

/-- The `while True:` loop, run for at most `fuel` iterations starting at
counter value `c`.  Each iteration builds the message, attempts the send
(dying with `WriteError` on failure, before the counter is incremented),
prints, increments the counter, and sleeps one second (dying with
`KeyboardInterrupt` there when the environment delivers one). -/
def runAux (env : Env) : Nat → Nat → List Event × Final
  | c, 0 => ([], Final.running c)
  | c, fuel + 1 =>
    if env.writeOk c then
      if env.interruptAt c then
        ([Event.sent c (message c (env.clock c)),
          Event.printSent (message c (env.clock c)),
          Event.raised PyError.keyboardInterrupt, Event.socketClosed],
         Final.exited PyError.keyboardInterrupt (some (c + 1)))
      else
        (Event.sent c (message c (env.clock c)) ::
           Event.printSent (message c (env.clock c)) ::
           Event.sleep 1 :: (runAux env (c + 1) fuel).1,
         (runAux env (c + 1) fuel).2)
    else
      ([Event.raised PyError.writeError, Event.socketClosed],
       Final.exited PyError.writeError (some c))

/-- A whole run of the script: connect (dying with `ConnectionError` on
failure), print, set `counter = 0`, then loop for at most `fuel`
iterations. -/
def run (env : Env) (fuel : Nat) : List Event × Final :=
  if env.connectOk then
    (Event.connectAttempt HOST PORT :: Event.printConnected ::
       (runAux env 0 fuel).1,
     (runAux env 0 fuel).2)
  else
    ([Event.connectAttempt HOST PORT, Event.raised PyError.connectionError,
      Event.socketClosed],
     Final.exited PyError.connectionError none)

/-- The sequence numbers embedded in the sent messages, in send order. -/
def seqsOf (evs : List Event) : List Nat :=
  evs.filterMap fun e =>
    match e with
    | Event.sent seq _ => some seq
    | _ => none

/-- The payloads written to the stream, in send order. -/
def payloadsOf (evs : List Event) : List String :=
  evs.filterMap fun e =>
    match e with
    | Event.sent _ payload => some payload
    | _ => none

/-- Sequence numbers sent by a fuel-bounded run. -/
def sentSeqs (env : Env) (fuel : Nat) : List Nat := seqsOf (run env fuel).1

/-- Payloads sent by a fuel-bounded run. -/
def sentPayloads (env : Env) (fuel : Nat) : List String :=
  payloadsOf (run env fuel).1

/-- Number of messages sent by a fuel-bounded run. -/
def numSent (env : Env) (fuel : Nat) : Nat := (sentSeqs env fuel).length

/-- Recognizes connect events, for counting connection attempts. -/
def isConnectEvent : Event → Bool
  | Event.connectAttempt _ _ => true
  | _ => false

/-- Strips the literal `lit` from the front of `cs`, returning the rest,
or `none` when `cs` does not start with `lit`. -/
def chop : List Char → List Char → Option (List Char)
  | [], cs => some cs
  | _ :: _, [] => none
  | l :: ls, c :: cs => if c = l then chop ls cs else none

/-- Splits off the longest run of leading decimal digits. -/
def spanDigits : List Char → List Char × List Char
  | [] => ([], [])
  | c :: cs =>
    if c.isDigit then (c :: (spanDigits cs).1, (spanDigits cs).2)
    else ([], c :: cs)

/-- Checks that a character list is one or more digits, a dot, then one or
more digits and nothing else: the regex fragment of one or more digits,
a literal dot, and one or more digits, anchored at both ends. -/
def digitsDotDigits (cs : List Char) : Bool :=
  match spanDigits cs with
  | (d2, rest) =>
    !d2.isEmpty &&
      (match rest with
       | '.' :: r => !(spanDigits r).1.isEmpty && (spanDigits r).2.isEmpty
       | _ => false)

/-- A timestamp string of the form digits, dot, digits. -/
def isFloatLit (s : String) : Bool := digitsDotDigits s.data

/-- Full match of a string against the spec pattern: the literal `Hello`
and a space, one or more digits, the literal ` at `, then digits, a dot
and digits to the end. -/
def matchesHello (s : String) : Bool :=
  match chop "Hello ".data s.data with
  | none => false
  | some r1 =>
    match spanDigits r1 with
    | (d1, r2) =>
      !d1.isEmpty &&
        (match chop " at ".data r2 with
         | none => false
         | some r3 => digitsDotDigits r3)

/-- Scans an event list checking that every sleep lasts exactly one second
and that between any two sent events a completed sleep occurs; the flag
records whether a send has happened with no sleep since. -/
def sleepSepAux : Bool → List Event → Bool
  | _, [] => true
  | pending, Event.sent _ _ :: rest => !pending && sleepSepAux true rest
  | _, Event.sleep n :: rest => (n == 1) && sleepSepAux false rest
  | pending, _ :: rest => sleepSepAux pending rest

/-- Every sleep in the list lasts exactly one second and any two sent
events are separated by at least one completed sleep. -/
def sleepSeparated (evs : List Event) : Bool := sleepSepAux false evs

/-- An environment where everything succeeds and the clock always renders
as the same well-formed float literal. -/
def envAllOk : Env := ⟨true, fun _ => true, fun _ => false, fun _ => "12.5"⟩

/-- An environment where the connection is refused. -/
def envNoConn : Env := ⟨false, fun _ => true, fun _ => false, fun _ => "1.0"⟩

/-- An environment where the third write (iteration 2) fails. -/
def envFail2 : Env := ⟨true, fun i => !(i == 2), fun _ => false, fun _ => "1.0"⟩

/-- An environment where a keyboard interrupt arrives during the sleep of
iteration 1. -/
def envIntr1 : Env := ⟨true, fun _ => true, fun i => i == 1, fun _ => "1.0"⟩

end Sender
namespace Sender

theorem seqsOf_runAux (env : Env) :
    ∀ (fuel c : Nat), seqsOf (runAux env c fuel).1 =
      List.range' c (seqsOf (runAux env c fuel).1).length := by
  intro fuel
  induction fuel with
  | zero => intro c; simp [runAux, seqsOf]
  | succ n ih =>
    intro c
    by_cases hw : env.writeOk c = true
    · by_cases hi : env.interruptAt c = true
      · simp [runAux, hw, hi, seqsOf, List.range'_succ]
      · simp only [runAux, hw, hi, if_true, Bool.false_eq_true, if_false]
        simp only [seqsOf, List.filterMap_cons, List.length_cons]
        rw [List.range'_succ]
        congr 1
        exact ih (c + 1)
    · simp [runAux, hw, seqsOf]

theorem sentSeqs_range (env : Env) (fuel : Nat) :
    sentSeqs env fuel = List.range (numSent env fuel) := by
  unfold numSent sentSeqs run
  by_cases hc : env.connectOk = true
  · simp only [hc, if_true]
    simp only [seqsOf, List.filterMap_cons]
    rw [List.range_eq_range']
    exact seqsOf_runAux env fuel 0
  · simp [hc, seqsOf]

/-- C1: the sequence numbers embedded in the sent messages of any run are
exactly 0, 1, ..., N-1 in send order, where N is the number of messages
sent: the counter starts at 0, rises by exactly 1 per successful send, and
is never reused or reset within a run. -/
theorem sent_seqs_exact (env : Env) (fuel : Nat) :
    sentSeqs env fuel = List.range (numSent env fuel) :=
  sentSeqs_range env fuel

theorem connects_runAux (env : Env) :
    ∀ (fuel c : Nat), (runAux env c fuel).1.filter isConnectEvent = [] := by
  intro fuel
  induction fuel with
  | zero => intro c; simp [runAux]
  | succ n ih =>
    intro c
    by_cases hw : env.writeOk c = true
    · by_cases hi : env.interruptAt c = true
      · simp [runAux, hw, hi, isConnectEvent]
      · simp [runAux, hw, hi, isConnectEvent, ih (c + 1)]
    · simp [runAux, hw, isConnectEvent]

/-- C7: the startup configuration is exactly host 127.0.0.1 and port 6000,
the connect operation is invoked exactly once per run and with that pair,
and no later event is ever a connection attempt: the program never returns
to the connecting state. -/
theorem single_connect (env : Env) (fuel : Nat) :
    HOST = "127.0.0.1" ∧ PORT = 6000 ∧
    (run env fuel).1.filter isConnectEvent =
      [Event.connectAttempt HOST PORT] := by
  refine ⟨rfl, rfl, ?_⟩
  by_cases hc : env.connectOk = true
  · simp [run, hc, isConnectEvent, connects_runAux env fuel 0]
  · simp [run, hc, isConnectEvent]

/-- C3: when the connection cannot be established, the run raises
`ConnectionError`, the socket is closed, and nothing is ever written to the
stream: zero sent events, and the counter is never even initialized. -/
theorem connect_fail_no_send (env : Env) (fuel : Nat)
    (hc : env.connectOk = false) :
    run env fuel =
      ([Event.connectAttempt HOST PORT, Event.raised PyError.connectionError,
        Event.socketClosed],
       Final.exited PyError.connectionError none) ∧
    numSent env fuel = 0 := by
  constructor
  · simp [run, hc]
  · simp [numSent, sentSeqs, run, hc, seqsOf]

theorem connect_fail_no_send_witness :
    envNoConn.connectOk = false ∧
    (run envNoConn 5 =
      ([Event.connectAttempt HOST PORT, Event.raised PyError.connectionError,
        Event.socketClosed],
       Final.exited PyError.connectionError none) ∧
     numSent envNoConn 5 = 0) :=
  ⟨rfl, connect_fail_no_send envNoConn 5 rfl⟩

theorem runAux_exit_closed (env : Env) :
    ∀ (fuel c : Nat) (e : PyError) (co : Option Nat),
      (runAux env c fuel).2 = Final.exited e co →
      (runAux env c fuel).1.getLast? = some Event.socketClosed := by
  intro fuel
  induction fuel with
  | zero => intro c e co h; simp [runAux] at h
  | succ n ih =>
    intro c e co h
    by_cases hw : env.writeOk c = true
    · by_cases hi : env.interruptAt c = true
      · simp [runAux, hw, hi]
      · simp only [runAux, hw, hi, if_true, Bool.false_eq_true, if_false]
        at h ⊢
        have h2 := ih (c + 1) e co h
        cases hr : (runAux env (c + 1) n).1 with
        | nil => rw [hr] at h2; simp at h2
        | cons x xs =>
          rw [hr] at h2
          simp only [hr, List.getLast?_cons_cons]
          exact h2
    · simp [runAux, hw]

/-- C6: on every exit path of the process (failed connect, failed write, or
keyboard interrupt) the final observable event is the socket being closed
by the enclosing scope: the program never terminates leaving the socket
open. -/
theorem socket_closed_on_exit (env : Env) (fuel : Nat) (e : PyError)
    (co : Option Nat) (h : (run env fuel).2 = Final.exited e co) :
    (run env fuel).1.getLast? = some Event.socketClosed := by
  by_cases hc : env.connectOk = true
  · simp only [run, hc, if_true] at h ⊢
    have h2 := runAux_exit_closed env fuel 0 e co h
    cases hr : (runAux env 0 fuel).1 with
    | nil => rw [hr] at h2; simp at h2
    | cons x xs =>
      rw [hr] at h2
      simp only [hr, List.getLast?_cons_cons]
      exact h2
  · simp [run, hc]

theorem socket_closed_on_exit_witness :
    (run envNoConn 1).2 = Final.exited PyError.connectionError none ∧
    (run envNoConn 1).1.getLast? = some Event.socketClosed :=
  ⟨by decide,
   socket_closed_on_exit envNoConn 1 PyError.connectionError none (by decide)⟩

theorem runAux_write_fail (env : Env) :
    ∀ (fuel c j : Nat), c ≤ j →
      (∀ i, c ≤ i → i < j → env.writeOk i = true ∧ env.interruptAt i = false) →
      env.writeOk j = false → j - c < fuel →
      (runAux env c fuel).2 = Final.exited PyError.writeError (some j) ∧
      seqsOf (runAux env c fuel).1 = List.range' c (j - c) := by
  intro fuel
  induction fuel with
  | zero => intro c j _ _ _ hlt; omega
  | succ n ih =>
    intro c j hcj hok hj hlt
    rcases Nat.eq_or_lt_of_le hcj with heq | hlt2
    · subst heq
      simp [runAux, hj, seqsOf]
    · have hwc := hok c (le_refl c) hlt2
      have h1 := ih (c + 1) j hlt2 (fun i hi1 hi2 => hok i (by omega) hi2) hj
        (by omega)
      simp only [runAux, hwc.1, hwc.2, if_true, Bool.false_eq_true, if_false]
      refine ⟨h1.1, ?_⟩
      have hjc : j - c = (j - (c + 1)) + 1 := by omega
      rw [hjc, List.range'_succ]
      simp only [seqsOf, List.filterMap_cons]
      have h2 := h1.2
      simp only [seqsOf] at h2
      rw [h2]

/-- C4: when the send of iteration j fails (all earlier iterations having
completed normally), the process dies with `WriteError` at once: exactly
the first j messages were sent with sequence numbers 0..j-1, nothing is
retried or sent afterwards, and the counter stays at j, not incremented for
the failed message. -/
theorem write_fail_terminates (env : Env) (fuel j : Nat)
    (hc : env.connectOk = true)
    (hok : ∀ i, i < j → env.writeOk i = true ∧ env.interruptAt i = false)
    (hj : env.writeOk j = false) (hfuel : j < fuel) :
    (run env fuel).2 = Final.exited PyError.writeError (some j) ∧
    sentSeqs env fuel = List.range j := by
  have h := runAux_write_fail env fuel 0 j (Nat.zero_le j)
    (fun i _ hi2 => hok i hi2) hj (by omega)
  refine ⟨by simp only [run, hc, if_true]; exact h.1, ?_⟩
  simp only [sentSeqs, run, hc, if_true, seqsOf, List.filterMap_cons]
  rw [List.range_eq_range']
  have h2 := h.2
  simp only [seqsOf, Nat.sub_zero] at h2
  exact h2

theorem write_fail_terminates_witness :
    envFail2.connectOk = true ∧
    ((run envFail2 5).2 = Final.exited PyError.writeError (some 2) ∧
     sentSeqs envFail2 5 = List.range 2) :=
  ⟨rfl, write_fail_terminates envFail2 5 2 rfl (by decide) (by decide)
    (by decide)⟩

theorem runAux_all_ok (env : Env)
    (hw : ∀ i, env.writeOk i = true) (hi : ∀ i, env.interruptAt i = false) :
    ∀ (fuel c : Nat), (runAux env c fuel).2 = Final.running (c + fuel) ∧
      seqsOf (runAux env c fuel).1 = List.range' c fuel := by
  intro fuel
  induction fuel with
  | zero => intro c; simp [runAux, seqsOf]
  | succ n ih =>
    intro c
    simp only [runAux, hw c, hi c, if_true, Bool.false_eq_true, if_false]
    refine ⟨?_, ?_⟩
    · have h1 := (ih (c + 1)).1
      rw [h1]
      congr 1
      omega
    · simp only [seqsOf, List.filterMap_cons]
      rw [List.range'_succ]
      have h2 := (ih (c + 1)).2
      simp only [seqsOf] at h2
      rw [h2]

/-- C8: the counter is an exact, arbitrary-precision natural number: for
every number of iterations, a run in which every send succeeds ends with
the counter exactly that number and the sent sequence numbers exactly the
initial segment of that length — no overflow, wraparound, or truncation at
any size. -/
theorem counter_exact_unbounded (env : Env) (fuel : Nat)
    (hc : env.connectOk = true)
    (hw : ∀ i, env.writeOk i = true) (hi : ∀ i, env.interruptAt i = false) :
    (run env fuel).2 = Final.running fuel ∧
    sentSeqs env fuel = List.range fuel := by
  have h := runAux_all_ok env hw hi fuel 0
  refine ⟨?_, ?_⟩
  · simp only [run, hc, if_true]
    have h1 := h.1
    rw [h1]
    congr 1
    omega
  · simp only [sentSeqs, run, hc, if_true, seqsOf, List.filterMap_cons]
    rw [List.range_eq_range']
    have h2 := h.2
    simp only [seqsOf] at h2
    exact h2

theorem counter_exact_unbounded_witness :
    (run envAllOk 4).2 = Final.running 4 ∧
    sentSeqs envAllOk 4 = List.range 4 :=
  counter_exact_unbounded envAllOk 4 rfl (fun _ => rfl) (fun _ => rfl)

/-- C9: the first message, with sequence number 0, is written immediately
after the connection is established — the first three events are connect,
the connected print, and the send of message 0, with no sleep before it —
and after k full iterations exactly k messages have been sent. -/
theorem first_send_immediate (env : Env) (fuel : Nat)
    (hc : env.connectOk = true)
    (hw : ∀ i, env.writeOk i = true) (hi : ∀ i, env.interruptAt i = false)
    (hf : 1 ≤ fuel) :
    (run env fuel).1.take 3 =
      [Event.connectAttempt HOST PORT, Event.printConnected,
       Event.sent 0 (message 0 (env.clock 0))] ∧
    numSent env fuel = fuel := by
  refine ⟨?_, ?_⟩
  · cases fuel with
    | zero => omega
    | succ n => simp [run, hc, runAux, hw 0, hi 0]
  · have h2 := (runAux_all_ok env hw hi fuel 0).2
    simp only [numSent, sentSeqs, run, hc, if_true, seqsOf,
      List.filterMap_cons]
    simp only [seqsOf] at h2
    rw [h2, List.length_range']

theorem first_send_immediate_witness :
    (run envAllOk 2).1.take 3 =
      [Event.connectAttempt HOST PORT, Event.printConnected,
       Event.sent 0 (message 0 (envAllOk.clock 0))] ∧
    numSent envAllOk 2 = 2 :=
  first_send_immediate envAllOk 2 rfl (fun _ => rfl) (fun _ => rfl)
    (by decide)

theorem sleepSep_runAux (env : Env) :
    ∀ (fuel c : Nat), sleepSepAux false (runAux env c fuel).1 = true := by
  intro fuel
  induction fuel with
  | zero => intro c; simp [runAux, sleepSepAux]
  | succ n ih =>
    intro c
    by_cases hw : env.writeOk c = true
    · by_cases hi : env.interruptAt c = true
      · simp [runAux, hw, hi, sleepSepAux]
      · simp [runAux, hw, hi, sleepSepAux, ih (c + 1)]
    · simp [runAux, hw, sleepSepAux]

/-- C5: in every run, every sleep lasts exactly one second, and between any
two successive sent messages a full one-second sleep completes: execution
suspends for the fixed one-second interval after each send, so successive
sends are never less than one second apart. -/
theorem sends_sleep_separated (env : Env) (fuel : Nat) :
    sleepSeparated (run env fuel).1 = true := by
  by_cases hc : env.connectOk = true
  · simp [sleepSeparated, run, hc, sleepSepAux, sleepSep_runAux env fuel 0]
  · simp [sleepSeparated, run, hc, sleepSepAux]

end Sender
namespace Sender

theorem chop_append (l r : List Char) : chop l (l ++ r) = some r := by
  induction l with
  | nil => rfl
  | cons x xs ih => simp [chop, ih]

theorem digitChar_isDigit (d : Nat) (h : d < 10) :
    (digitChar d).isDigit = true := by
  interval_cases d <;> rfl

theorem natStrAux_digits :
    ∀ (fuel n : Nat) (acc : List Char),
      (∀ c ∈ acc, c.isDigit = true) →
      ∀ c ∈ natStrAux fuel n acc, c.isDigit = true := by
  intro fuel
  induction fuel with
  | zero => intro n acc hacc; simpa [natStrAux] using hacc
  | succ m ih =>
    intro n acc hacc c hc
    by_cases hn : n < 10
    · simp only [natStrAux, hn, if_true] at hc
      rcases List.mem_cons.mp hc with h | h
      · subst h; exact digitChar_isDigit n hn
      · exact hacc c h
    · simp only [natStrAux, hn, if_false] at hc
      refine ih (n / 10) (digitChar (n % 10) :: acc) ?_ c hc
      intro d hd
      rcases List.mem_cons.mp hd with h | h
      · subst h; exact digitChar_isDigit (n % 10) (Nat.mod_lt _ (by omega))
      · exact hacc d h

theorem natStr_digits (n : Nat) : ∀ c ∈ (natStr n).data, c.isDigit = true :=
  natStrAux_digits (n + 1) n [] (by simp)

theorem natStrAux_ne_nil :
    ∀ (fuel n : Nat) (acc : List Char), acc ≠ [] →
      natStrAux fuel n acc ≠ [] := by
  intro fuel
  induction fuel with
  | zero => intro n acc h; simpa [natStrAux] using h
  | succ m ih =>
    intro n acc h
    by_cases hn : n < 10
    · simp [natStrAux, hn]
    · simp only [natStrAux, hn, if_false]
      exact ih (n / 10) _ (by simp)

theorem natStr_ne_nil (n : Nat) : (natStr n).data ≠ [] := by
  show natStrAux (n + 1) n [] ≠ []
  by_cases hn : n < 10
  · simp [natStrAux, hn]
  · simp only [natStrAux, hn, if_false]
    exact natStrAux_ne_nil n (n / 10) _ (by simp)

theorem spanDigits_append (ds : List Char) (c0 : Char) (r : List Char)
    (hds : ∀ c ∈ ds, c.isDigit = true) (hc0 : c0.isDigit = false) :
    spanDigits (ds ++ c0 :: r) = (ds, c0 :: r) := by
  induction ds with
  | nil => simp [spanDigits, hc0]
  | cons d ds ih =>
    have hd : d.isDigit = true := hds d (by simp)
    have hrest : ∀ c ∈ ds, c.isDigit = true := fun c hc => hds c (by simp [hc])
    simp [spanDigits, hd, ih hrest]

theorem matchesHello_message (n : Nat) (ts : String)
    (h : isFloatLit ts = true) : matchesHello (message n ts) = true := by
  have hdata : (message n ts).data =
      "Hello ".data ++
        ((natStr n).data ++ (' ' :: ('a' :: 't' :: ' ' :: ts.data))) := by
    show ("Hello " ++ natStr n ++ " at " ++ ts).data = _
    simp [String.data_append]
  have hspan :
      spanDigits ((natStr n).data ++ (' ' :: ('a' :: 't' :: ' ' :: ts.data)))
        = ((natStr n).data, ' ' :: ('a' :: 't' :: ' ' :: ts.data)) :=
    spanDigits_append _ _ _ (natStr_digits n) (by decide)
  have hne : (natStr n).data.isEmpty = false := by
    rcases hnil : (natStr n).data with _ | ⟨x, xs⟩
    · exact absurd hnil (natStr_ne_nil n)
    · rfl
  have hchop2 : chop " at ".data (' ' :: ('a' :: 't' :: ' ' :: ts.data)) =
      some ts.data := chop_append " at ".data ts.data
  unfold matchesHello
  rw [hdata, chop_append]
  simp only [hspan, hne, hchop2, Bool.not_false, Bool.true_and]
  exact h

theorem sent_mem_runAux (env : Env) :
    ∀ (fuel c seq : Nat) (p : String),
      Event.sent seq p ∈ (runAux env c fuel).1 →
      p = message seq (env.clock seq) := by
  intro fuel
  induction fuel with
  | zero => intro c seq p h; simp [runAux] at h
  | succ n ih =>
    intro c seq p h
    by_cases hw : env.writeOk c = true
    · by_cases hi : env.interruptAt c = true
      · simp [runAux, hw, hi] at h
        obtain ⟨h1, h2⟩ := h
        subst h1; exact h2
      · simp [runAux, hw, hi] at h
        rcases h with ⟨h1, h2⟩ | h
        · subst h1; exact h2
        · exact ih (c + 1) seq p h
    · simp [runAux, hw] at h

/-- C2: every payload written to the stream is exactly the text built from
the literal Hello, the current counter rendered in decimal, the literal at,
and the rendered clock reading; whenever the clock rendering has the usual
digits-dot-digits shape, the payload matches the full spec pattern of
Hello, digits, at, digits, dot, digits. -/
theorem payload_format (env : Env) (fuel seq : Nat) (p : String)
    (hmem : Event.sent seq p ∈ (run env fuel).1) :
    p = message seq (env.clock seq) ∧
    (isFloatLit (env.clock seq) = true → matchesHello p = true) := by
  have hp : p = message seq (env.clock seq) := by
    by_cases hc : env.connectOk = true
    · simp only [run, hc, if_true, List.mem_cons] at hmem
      rcases hmem with h | h | h
      · exact absurd h (by simp)
      · exact absurd h (by simp)
      · exact sent_mem_runAux env fuel 0 seq p h
    · simp [run, hc] at hmem
  exact ⟨hp, fun hf => hp ▸ matchesHello_message seq (env.clock seq) hf⟩

theorem payload_format_witness :
    Event.sent 0 "Hello 0 at 12.5" ∈ (run envAllOk 1).1 ∧
    ("Hello 0 at 12.5" = message 0 (envAllOk.clock 0) ∧
     (isFloatLit (envAllOk.clock 0) = true →
      matchesHello "Hello 0 at 12.5" = true)) :=
  ⟨by decide, payload_format envAllOk 1 0 "Hello 0 at 12.5" (by decide)⟩

theorem payloadsOf_eq_map (env : Env) :
    ∀ (fuel c : Nat), payloadsOf (runAux env c fuel).1 =
      (seqsOf (runAux env c fuel).1).map (fun i => message i (env.clock i)) := by
  intro fuel
  induction fuel with
  | zero => intro c; simp [runAux, payloadsOf, seqsOf]
  | succ n ih =>
    intro c
    by_cases hw : env.writeOk c = true
    · by_cases hi : env.interruptAt c = true
      · simp [runAux, hw, hi, payloadsOf, seqsOf]
      · simp only [runAux, hw, hi, if_true, Bool.false_eq_true, if_false]
        simp only [payloadsOf, seqsOf, List.filterMap_cons, List.map_cons]
        congr 1
        exact ih (c + 1)
    · simp [runAux, hw, payloadsOf, seqsOf]

theorem sentPayloads_eq_map (env : Env) (fuel : Nat) :
    sentPayloads env fuel =
      (sentSeqs env fuel).map (fun i => message i (env.clock i)) := by
  unfold sentPayloads sentSeqs run
  by_cases hc : env.connectOk = true
  · simp only [hc, if_true]
    simp only [payloadsOf, seqsOf, List.filterMap_cons]
    exact payloadsOf_eq_map env fuel 0
  · simp [hc, payloadsOf, seqsOf]

/-- C10: the emitted byte stream is a deterministic function of the clock
readings alone: two runs whose environments render the same clock values
emit payload sequences one of which is an initial segment of the other,
byte for byte, whatever their other environmental differences. -/
theorem deterministic_in_clock (env1 env2 : Env) (fuel1 fuel2 : Nat)
    (h : env1.clock = env2.clock) :
    sentPayloads env1 fuel1 =
      (sentPayloads env2 fuel2).take (numSent env1 fuel1) ∨
    sentPayloads env2 fuel2 =
      (sentPayloads env1 fuel1).take (numSent env2 fuel2) := by
  have e1 : sentPayloads env1 fuel1 =
      (List.range (numSent env1 fuel1)).map
        (fun i => message i (env2.clock i)) := by
    rw [sentPayloads_eq_map, sentSeqs_range, h]
  have e2 : sentPayloads env2 fuel2 =
      (List.range (numSent env2 fuel2)).map
        (fun i => message i (env2.clock i)) := by
    rw [sentPayloads_eq_map, sentSeqs_range]
  rcases Nat.le_total (numSent env1 fuel1) (numSent env2 fuel2) with hle | hle
  · left
    rw [e1, e2, ← List.map_take, List.take_range, Nat.min_eq_left hle]
  · right
    rw [e1, e2, ← List.map_take, List.take_range, Nat.min_eq_left hle]

theorem deterministic_in_clock_witness :
    sentPayloads envAllOk 1 =
      (sentPayloads envAllOk 2).take (numSent envAllOk 1) ∨
    sentPayloads envAllOk 2 =
      (sentPayloads envAllOk 1).take (numSent envAllOk 2) :=
  deterministic_in_clock envAllOk envAllOk 1 2 rfl

end Sender
